import Mathlib

/-!
Verification of the UTXO-nursery core and the chain-parameter helpers of
this repository against its natural-language specification.

The repository sources under scrutiny are:
  - `chainparams.go` (present in full): network parameter tables and the
    `isTestnet` helper, embedded below in the `Chainparams` section;
  - the UTXO nursery (`utxonursery.go` / `nursery_store.go`): the
    implementation file is not among the provided sources; only its unit
    tests (`utxonursery_test.go`, shipped here inside
    `watchtower/interface.go`) are.  The nursery data model, store and
    incubator loop are therefore modelled from the specification text
    (sections 3, 4 and 5 of the spec); every such definition carries a
    doc comment starting with `Modelled from the spec:`.

Conventions of the embedding:
  - byte strings are `List Nat` (each entry one byte value);
  - a transaction is represented by its serialized bytes, and its txid is
    modelled by those bytes themselves (an injective stand-in for the
    double-SHA256 hash, adequate because the nursery only ever compares
    txids for equality);
  - machine integers (uint32 heights, int64 amounts) are `Nat`; no
    arithmetic in the modelled code paths can overflow or go negative.
-/

/-! ### Byte-level serialization primitives

Modelled from the spec: "Records are encoded as length-prefixed,
versioned byte blobs; every field decodes to exactly the value encoded".
`encNat` writes a natural number as a length-tagged little-endian base-256
digit string; `encBytes` writes a byte string with a length tag in front.
-/

/-- Length-tagged little-endian base-256 encoding of a natural number. -/
def encNat (n : Nat) : List Nat :=
  (Nat.digits 256 n).length :: Nat.digits 256 n

/-- Decoder matching `encNat`; returns the value and the remaining bytes. -/
def decNat (l : List Nat) : Option (Nat × List Nat) :=
  match l with
  | [] => none
  | len :: rest =>
      if len ≤ rest.length then
        some (Nat.ofDigits 256 (rest.take len), rest.drop len)
      else
        none

/-- Length-tagged encoding of a raw byte string. -/
def encBytes (l : List Nat) : List Nat :=
  encNat l.length ++ l

/-- Decoder matching `encBytes`. -/
def decBytes (s : List Nat) : Option (List Nat × List Nat) :=
  match decNat s with
  | none => none
  | some (n, rest) =>
      if n ≤ rest.length then
        some (rest.take n, rest.drop n)
      else
        none

/-! ### Nursery data model

Field names follow the Go records visible in the unit-test file
(`kidOutput`, `babyOutput`, their `breachedOutput` core, and
`lnwallet.SignDescriptor`).  The record layout itself is modelled from
the spec, section 3 ("Two concrete record shapes suffice").
-/

/-- Serialized transaction bytes; doubles as the transaction's id. -/
abbrev Tx := List Nat

/-- A transaction outpoint: 32-byte txid plus output index
(`wire.OutPoint`). -/
structure OutPoint where
  hash : List Nat
  index : Nat
deriving DecidableEq, Repr

/-- Witness-type tag carried by every tracked output
(`lnwallet.WitnessType`). -/
inductive WitnessType where
  | commitmentTimeLock
  | htlcOfferedRemoteTimeout
  | htlcAcceptedSuccessSecondLevel
  | htlcOfferedTimeoutSecondLevel
deriving DecidableEq, Repr

def WitnessType.toTag : WitnessType → Nat
  | .commitmentTimeLock => 0
  | .htlcOfferedRemoteTimeout => 1
  | .htlcAcceptedSuccessSecondLevel => 2
  | .htlcOfferedTimeoutSecondLevel => 3

def WitnessType.ofTag (n : Nat) : Option WitnessType :=
  match n with
  | 0 => some .commitmentTimeLock
  | 1 => some .htlcOfferedRemoteTimeout
  | 2 => some .htlcAcceptedSuccessSecondLevel
  | 3 => some .htlcOfferedTimeoutSecondLevel
  | _ => none

/-- Sign descriptor for one input (`lnwallet.SignDescriptor`): the fields
exercised by the repository's serialization test vectors. -/
structure SignDescriptor where
  pubKey : List Nat
  singleTweak : List Nat
  witnessScript : List Nat
  outputValue : Nat
  outputPkScript : List Nat
  hashType : Nat
deriving DecidableEq, Repr

/-- Modelled from the spec: "KidOutput — an output that is ready (or will
be ready at a known height) to be swept by a single signature: amount,
outpoint, witness-type tag, sign-descriptor, CSV delay, confirmation
height (set once confirmed), origin channel-point".  Field names follow
the Go test file. -/
structure kidOutput where
  amt : Nat
  outpoint : OutPoint
  witnessType : WitnessType
  signDesc : SignDescriptor
  originChanPoint : OutPoint
  blocksToMaturity : Nat
  confHeight : Nat
deriving DecidableEq, Repr

/-- Modelled from the spec: "BabyOutput — wraps a KidOutput plus a CLTV
expiry height and a fully pre-signed timeout transaction." -/
structure babyOutput where
  kid : kidOutput
  expiry : Nat
  timeoutTx : Tx
deriving DecidableEq, Repr

/-! ### Record encoders

Modelled from the spec: the nursery-store wire format
(`utxonursery.go`'s `kidOutput.Encode`/`Decode` and
`babyOutput.Encode`/`Decode` are not among the provided sources).  Each
record is written as a version byte followed by its fields in the order
the claim lists them; unknown versions fail to decode. -/

def OutPoint.encode (o : OutPoint) : List Nat :=
  encBytes o.hash ++ encNat o.index

def OutPoint.decode (s : List Nat) : Option (OutPoint × List Nat) :=
  match decBytes s with
  | none => none
  | some (h, s1) =>
      match decNat s1 with
      | none => none
      | some (i, s2) => some (⟨h, i⟩, s2)

def SignDescriptor.encode (d : SignDescriptor) : List Nat :=
  encBytes d.pubKey ++ encBytes d.singleTweak ++ encBytes d.witnessScript ++
    encNat d.outputValue ++ encBytes d.outputPkScript ++ encNat d.hashType

def SignDescriptor.decode (s : List Nat) : Option (SignDescriptor × List Nat) :=
  match decBytes s with
  | none => none
  | some (pk, s1) =>
    match decBytes s1 with
    | none => none
    | some (tw, s2) =>
      match decBytes s2 with
      | none => none
      | some (ws, s3) =>
        match decNat s3 with
        | none => none
        | some (v, s4) =>
          match decBytes s4 with
          | none => none
          | some (pks, s5) =>
            match decNat s5 with
            | none => none
            | some (ht, s6) => some (⟨pk, tw, ws, v, pks, ht⟩, s6)

def kidOutput.Encode (k : kidOutput) : List Nat :=
  0 :: (encNat k.amt ++ k.outpoint.encode ++ encNat k.witnessType.toTag ++
    k.signDesc.encode ++ k.originChanPoint.encode ++
    encNat k.blocksToMaturity ++ encNat k.confHeight)

def kidOutput.Decode (s : List Nat) : Option (kidOutput × List Nat) :=
  match s with
  | 0 :: s0 =>
    match decNat s0 with
    | none => none
    | some (amt, s1) =>
      match OutPoint.decode s1 with
      | none => none
      | some (op, s2) =>
        match decNat s2 with
        | none => none
        | some (wn, s3) =>
          match WitnessType.ofTag wn with
          | none => none
          | some wt =>
            match SignDescriptor.decode s3 with
            | none => none
            | some (sd, s4) =>
              match OutPoint.decode s4 with
              | none => none
              | some (ocp, s5) =>
                match decNat s5 with
                | none => none
                | some (btm, s6) =>
                  match decNat s6 with
                  | none => none
                  | some (ch, s7) => some (⟨amt, op, wt, sd, ocp, btm, ch⟩, s7)
  | _ => none

def babyOutput.Encode (b : babyOutput) : List Nat :=
  b.kid.Encode ++ encNat b.expiry ++ encBytes b.timeoutTx

def babyOutput.Decode (s : List Nat) : Option (babyOutput × List Nat) :=
  match kidOutput.Decode s with
  | none => none
  | some (k, s1) =>
    match decNat s1 with
    | none => none
    | some (e, s2) =>
      match decBytes s2 with
      | none => none
      | some (tx, s3) => some (⟨k, e, tx⟩, s3)

/-! ### Channel resolutions and intake classification

Modelled from the spec, section 4.4: `IncubateOutputs` "synchronously
classifies each supplied resolution into a BabyOutput (local-commit
outgoing HTLCs that carry a pre-signed timeout tx) or KidOutput
(everything else)".  Resolution field names follow
`lnwallet.OutgoingHtlcResolution` / `lnwallet.CommitOutputResolution`
as used by the unit tests (`createOutgoingRes`, `createCommitmentRes`).
-/

structure OutgoingHtlcResolution where
  expiry : Nat
  csvDelay : Nat
  amt : Nat
  signDesc : SignDescriptor
  signedTimeoutTx : Option Tx
  claimOutpoint : OutPoint
deriving DecidableEq, Repr

structure CommitOutputResolution where
  selfOutPoint : OutPoint
  amt : Nat
  signDesc : SignDescriptor
  maturityDelay : Nat
deriving DecidableEq, Repr

def makeCommitKid (cp : OutPoint) (r : CommitOutputResolution) : kidOutput :=
  ⟨r.amt, r.selfOutPoint, .commitmentTimeLock, r.signDesc, cp, r.maturityDelay, 0⟩

def makeRemoteHtlcKid (cp : OutPoint) (r : OutgoingHtlcResolution) : kidOutput :=
  ⟨r.amt, r.claimOutpoint, .htlcOfferedRemoteTimeout, r.signDesc, cp, r.csvDelay, 0⟩

/-- The baby's kid tracks the timeout transaction's only output, so its
outpoint is (timeout txid, 0). -/
def makeBaby (cp : OutPoint) (r : OutgoingHtlcResolution) (tx : Tx) : babyOutput :=
  ⟨⟨r.amt, ⟨tx, 0⟩, .htlcOfferedTimeoutSecondLevel, r.signDesc, cp, r.csvDelay, 0⟩,
    r.expiry, tx⟩

def classifyKids (cp : OutPoint) (cr : Option CommitOutputResolution)
    (hs : List OutgoingHtlcResolution) : List kidOutput :=
  (match cr with
   | none => []
   | some r => [makeCommitKid cp r]) ++
  (hs.filter (fun r => r.signedTimeoutTx.isNone)).map (makeRemoteHtlcKid cp)

def classifyBabies (cp : OutPoint) (hs : List OutgoingHtlcResolution) :
    List babyOutput :=
  hs.filterMap (fun r => r.signedTimeoutTx.map (makeBaby cp r))

/-! ### The nursery store

Modelled from the spec, sections 3 and 4.1: four stage buckets, a
finalization index keyed by height, and the graduated-height watermark.
The channel index and the height index are derived from the per-output
fields (`originChanPoint`, CLTV expiry, `confHeight + blocksToMaturity`),
which makes the spec's index-consistency invariant hold by construction.
-/

def kidChan (k : kidOutput) : OutPoint := k.originChanPoint

def babyChan (b : babyOutput) : OutPoint := b.kid.originChanPoint

/-- The height at which a kindergarten kid may be swept:
`confHeight + blocksToMaturity` (spec, section 3). -/
def maturityHeight (k : kidOutput) : Nat := k.confHeight + k.blocksToMaturity

structure Store where
  cribs : List babyOutput
  preschools : List kidOutput
  kinders : List kidOutput
  grads : List kidOutput
  finalized : List (Nat × Tx)
  lastGradHeight : Nat
deriving DecidableEq, Repr

def Store.empty : Store := ⟨[], [], [], [], [], 0⟩

def Store.hasOutpoint (st : Store) (op : OutPoint) : Bool :=
  st.cribs.any (fun b => decide (b.kid.outpoint = op)) ||
  st.preschools.any (fun k => decide (k.outpoint = op)) ||
  st.kinders.any (fun k => decide (k.outpoint = op)) ||
  st.grads.any (fun k => decide (k.outpoint = op))

/-- Modelled from the spec: `Incubate(kids, babies)` inserts records into
CRIB (babies) and PRESCHOOL (kids); "re-inserting the same outpoint is a
no-op, never an error".  Also returns the freshly inserted preschool
kids, for which the incubator registers confirmation notifications. -/
def Store.Incubate (st : Store) (kids : List kidOutput)
    (babies : List babyOutput) : Store × List kidOutput :=
  let newKids := kids.filter (fun k => !(st.hasOutpoint k.outpoint))
  let newBabies := babies.filter (fun b => !(st.hasOutpoint b.kid.outpoint))
  ({ st with preschools := st.preschools ++ newKids,
             cribs := st.cribs ++ newBabies }, newKids)

/-- Modelled from the spec: `CribToKinder(baby)` replaces a baby record
with its kid form in KINDERGARTEN once the baby's timeout transaction
(identified by its txid) confirms at height `h`; the kid's
`confHeight` is the confirmation height. -/
def Store.CribToKinder (st : Store) (txid : List Nat) (h : Nat) : Store :=
  let moved := (st.cribs.filter (fun b => decide (b.timeoutTx = txid))).map
      (fun b => { b.kid with confHeight := h })
  { st with cribs := st.cribs.filter (fun b => !(decide (b.timeoutTx = txid))),
            kinders := st.kinders ++ moved }

/-- Modelled from the spec: `PreschoolToKinder(kid, confHeight)` sets
`confHeight` on the kid and moves it to KINDERGARTEN.  The kid is
located by the txid on which its confirmation was registered: the hash
of its own outpoint (see the claim about remote-commit registrations). -/
def Store.PreschoolToKinder (st : Store) (txid : List Nat) (h : Nat) : Store :=
  let moved := (st.preschools.filter (fun k => decide (k.outpoint.hash = txid))).map
      (fun k => { k with confHeight := h })
  { st with
      preschools := st.preschools.filter (fun k => !(decide (k.outpoint.hash = txid))),
      kinders := st.kinders ++ moved }

/-- Modelled from the spec: `GraduateKinder(height)` moves all
kindergarten outputs filed at ≤ `height` to GRADUATED, removes the
finalized sweep record for that height, and prunes any channel whose
last output is now graduated. -/
def Store.GraduateKinder (st : Store) (h : Nat) : Store :=
  let due := st.kinders.filter (fun k => decide (maturityHeight k ≤ h))
  let kinders1 := st.kinders.filter (fun k => !(decide (maturityHeight k ≤ h)))
  let live : OutPoint → Bool := fun cp =>
    st.cribs.any (fun b => decide (babyChan b = cp)) ||
    st.preschools.any (fun k => decide (kidChan k = cp)) ||
    kinders1.any (fun k => decide (kidChan k = cp))
  { st with kinders := kinders1,
            grads := (st.grads ++ due).filter (fun k => live (kidChan k)),
            finalized := st.finalized.filter (fun p => !(decide (p.1 = h))) }

/-- First finalized sweep transaction recorded for height `h`. -/
def lookupFin (h : Nat) : List (Nat × Tx) → Option Tx
  | [] => none
  | p :: ps => if p.1 = h then some p.2 else lookupFin h ps

/-- Modelled from the spec: heights in the (derived) height index that
are ≤ `h`, ascending — KINDERGARTEN kids by maturity height and CRIB
babies by CLTV expiry. -/
def Store.HeightsBelowOrEqual (st : Store) (h : Nat) : List Nat :=
  (List.range (h + 1)).filter (fun x =>
    st.kinders.any (fun k => decide (maturityHeight k = x)) ||
    st.cribs.any (fun b => decide (b.expiry = x)))

def Store.ListChannels (st : Store) : List OutPoint :=
  (st.cribs.map babyChan ++ st.preschools.map kidChan ++
    st.kinders.map kidChan ++ st.grads.map kidChan).dedup

/-! ### Incubator loop, sweep pipeline and restart

Modelled from the spec, sections 4.2, 4.3 and 5.  The observable actions
of the nursery (transaction broadcasts, confirmation registrations) are
emitted as an `Action` list; broadcasts are tagged with their purpose so
that the sweep published for a height class can be distinguished from a
crib timeout broadcast.  The deterministic model folds each
`FinalizeKinder`+publish pair into one atomic step, as the spec requires
`FinalizeKinder(h, tx)` to be persisted before the broadcast. -/

inductive Act where
  | publishTimeout (tx : Tx)
  | publishSweep (h : Nat) (tx : Tx)
  | registerConf (txid : List Nat)
deriving DecidableEq, Repr

def Act.isPublish : Act → Bool
  | .publishTimeout _ => true
  | .publishSweep _ _ => true
  | .registerConf _ => false

inductive Event where
  | incubate (chanPoint : OutPoint) (commitRes : Option CommitOutputResolution)
      (htlcRes : List OutgoingHtlcResolution)
  | epoch (h : Nat)
  | conf (txid : List Nat) (h : Nat)
  | restart
deriving DecidableEq, Repr

/-- Modelled from the spec: the sweep transaction built for one height
class — "Inputs: every kid in `kids`...; single output...".  The signer,
fee estimator and sweep script are external collaborators; the bytes are
a deterministic function of the class's inputs. -/
def buildSweep (kids : List kidOutput) : Tx :=
  255 :: (kids.map (fun k => k.outpoint.hash ++ [k.outpoint.index])).flatten

/-- Modelled from the spec, section 4.3 (`graduateClass`): fetch the
height's class; if it has kindergarten kids, reuse the finalized sweep
transaction when one exists ("the crash-recovery pivot"), otherwise
build one, persist it via `FinalizeKinder` and publish it. -/
def graduateClass (st : Store) (h : Nat) : Store × List Act :=
  let kids := st.kinders.filter (fun k => decide (maturityHeight k = h))
  if kids.isEmpty then (st, [])
  else
    match lookupFin h st.finalized with
    | some tx => (st, [.publishSweep h tx, .registerConf tx])
    | none =>
      let tx := buildSweep kids
      ({ st with finalized := st.finalized ++ [(h, tx)] },
        [.publishSweep h tx, .registerConf tx])

def graduateClasses (st : Store) : List Nat → Store × List Act
  | [] => (st, [])
  | h :: hs =>
    let p := graduateClass st h
    let q := graduateClasses p.1 hs
    (q.1, p.2 ++ q.2)

def cribActions (due : List babyOutput) : List Act :=
  due.map (fun b => Act.publishTimeout b.timeoutTx) ++
  due.map (fun b => Act.registerConf b.timeoutTx)

/-- Modelled from the spec, section 4.2 (main loop at height `h`):
broadcast the timeout tx of every expired CRIB baby, run one
`graduateClass` per due height in ascending order, persist the
graduated-height watermark. -/
def stepEpoch (st : Store) (h : Nat) : Store × List Act :=
  let due := st.cribs.filter (fun b => decide (b.expiry ≤ h))
  let p := graduateClasses st (st.HeightsBelowOrEqual h)
  ({ p.1 with lastGradHeight := h }, cribActions due ++ p.2)

def sweepConfHeights (st : Store) (txid : List Nat) : List Nat :=
  (st.finalized.filter (fun p => decide (p.2 = txid))).map (fun p => p.1)

/-- Modelled from the spec, section 4.2 (asynchronous events): a
confirmation for `txid` at height `h` promotes matching CRIB babies and
PRESCHOOL kids to KINDERGARTEN, and graduates the class of any finalized
sweep transaction with that txid. -/
def stepConf (st : Store) (txid : List Nat) (h : Nat) : Store :=
  let st1 := st.CribToKinder txid h
  let st2 := st1.PreschoolToKinder txid h
  (sweepConfHeights st2 txid).foldl (fun s hh => s.GraduateKinder hh) st2

structure Core where
  store : Store
  tip : Nat
deriving DecidableEq, Repr

def Core.init : Core := ⟨Store.empty, 0⟩

def incubateResult (c : Core) (cp : OutPoint) (cr : Option CommitOutputResolution)
    (hs : List OutgoingHtlcResolution) : Store × List kidOutput :=
  c.store.Incubate (classifyKids cp cr hs) (classifyBabies cp hs)

/-- Modelled from the spec, sections 4.2 and 5 (startup / restart): the
store is untouched; the nursery re-registers every preschool
confirmation, re-broadcasts the timeout transaction of every CRIB baby
whose CLTV is at or below the best-known tip, and re-publishes every
finalized sweep transaction that has not yet confirmed (confirmation
removes the finalized record via `GraduateKinder`). -/
def restartActions (c : Core) : List Act :=
  c.store.preschools.map (fun k => Act.registerConf k.outpoint.hash) ++
  (c.store.cribs.filter (fun b => decide (b.expiry ≤ c.tip))).map
    (fun b => Act.publishTimeout b.timeoutTx) ++
  (c.store.cribs.filter (fun b => decide (b.expiry ≤ c.tip))).map
    (fun b => Act.registerConf b.timeoutTx) ++
  c.store.finalized.map (fun p => Act.publishSweep p.1 p.2) ++
  c.store.finalized.map (fun p => Act.registerConf p.2)

def coreStep (c : Core) : Event → Core
  | .incubate cp cr hs => { c with store := (incubateResult c cp cr hs).1 }
  | .epoch h => ⟨(stepEpoch c.store h).1, h⟩
  | .conf txid h => { c with store := stepConf c.store txid h }
  | .restart => c

def emits (c : Core) : Event → List Act
  | .incubate cp cr hs =>
      ((incubateResult c cp cr hs).2).map (fun k => Act.registerConf k.outpoint.hash)
  | .epoch h => (stepEpoch c.store h).2
  | .conf _ _ => []
  | .restart => restartActions c

def coreRun (c : Core) : List Event → Core
  | [] => c
  | e :: es => coreRun (coreStep c e) es

def emitsFrom (c : Core) : List Event → List Act
  | [] => []
  | e :: es => emits c e ++ emitsFrom (coreStep c e) es

/-! ### Reporting

Modelled from the spec, section 4.4 (`NurseryReport`): limbo balance is
the sum over non-graduated outputs, recovered balance the sum over
graduated ones; HTLC entries report stage 1 in CRIB and stage 2 in
PRESCHOOL and KINDERGARTEN (PRESCHOOL folded into stage 2); an unknown
channel yields `ErrContractNotFound`. -/

inductive NurseryError where
  | contractNotFound
deriving DecidableEq, Repr

structure htlcMaturityReport where
  outpoint : OutPoint
  amount : Nat
  stage : Nat
  maturityHeight : Nat
deriving DecidableEq, Repr

structure contractMaturityReport where
  limboBalance : Nat
  recoveredBalance : Nat
  htlcs : List htlcMaturityReport
deriving DecidableEq, Repr

def chanCribs (st : Store) (cp : OutPoint) : List babyOutput :=
  st.cribs.filter (fun b => decide (babyChan b = cp))

def chanPreschools (st : Store) (cp : OutPoint) : List kidOutput :=
  st.preschools.filter (fun k => decide (kidChan k = cp))

def chanKinders (st : Store) (cp : OutPoint) : List kidOutput :=
  st.kinders.filter (fun k => decide (kidChan k = cp))

def chanGrads (st : Store) (cp : OutPoint) : List kidOutput :=
  st.grads.filter (fun k => decide (kidChan k = cp))

def isHtlcType (w : WitnessType) : Bool := !(decide (w = .commitmentTimeLock))

def cribEntry (b : babyOutput) : htlcMaturityReport :=
  ⟨b.kid.outpoint, b.kid.amt, 1, b.expiry⟩

def preschoolEntry (k : kidOutput) : htlcMaturityReport :=
  ⟨k.outpoint, k.amt, 2, 0⟩

def kinderEntry (k : kidOutput) : htlcMaturityReport :=
  ⟨k.outpoint, k.amt, 2, maturityHeight k⟩

def sumAmts (ks : List kidOutput) : Nat := (ks.map kidOutput.amt).sum

def NurseryReport (st : Store) (cp : OutPoint) :
    Except NurseryError contractMaturityReport :=
  let cr := chanCribs st cp
  let ps := chanPreschools st cp
  let kn := chanKinders st cp
  let gr := chanGrads st cp
  if cr = [] ∧ ps = [] ∧ kn = [] ∧ gr = [] then
    .error .contractNotFound
  else
    .ok { limboBalance := (cr.map (fun b => b.kid.amt)).sum + sumAmts ps + sumAmts kn,
          recoveredBalance := sumAmts gr,
          htlcs := cr.map cribEntry ++
            (ps.filter (fun k => isHtlcType k.witnessType)).map preschoolEntry ++
            (kn.filter (fun k => isHtlcType k.witnessType)).map kinderEntry }

/-! ### Trace well-formedness

An event trace is well formed when every incubated baby is unexpired at
intake (its CLTV lies beyond the current chain tip): the nursery is
handed resolutions at channel-close time, before their timelocks run
out, and broadcasts expired timeout transactions only from the epoch
loop or the startup sequence. -/

def okEvent (c : Core) : Event → Bool
  | .incubate cp _ hs => (classifyBabies cp hs).all (fun b => decide (c.tip < b.expiry))
  | _ => true

def wfEvents : Core → List Event → Bool
  | _, [] => true
  | c, e :: es => okEvent c e && wfEvents (coreStep c e) es

/-! ### Chain parameters (`chainparams.go`)

Embedded from the source file `chainparams.go`.  Only the fields that
`isTestnet` and `applyMonacoinParams` touch are modelled; the network
magics are the values of the corresponding `bitcoinWire`/`monacoinWire`
constants. -/

namespace Chainparams

/-- `bitcoinWire.TestNet3` network magic. -/
def TestNet3 : Nat := 0x0709110b

/-- `bitcoinWire.MainNet` network magic. -/
def MainNet : Nat := 0xd9b4bef9

/-- `bitcoinWire.SimNet` network magic. -/
def SimNet : Nat := 0x12141c16

/-- `bitcoinWire.TestNet` network magic (the regression-test network). -/
def RegTest : Nat := 0xdab5bffa

/-- `monacoinWire.MainNet` network magic. -/
def MonacoinMainNet : Nat := 0xdbb6c0fb

/-- `monacoinWire.TestNet4` network magic. -/
def MonacoinTestNet4 : Nat := 0xf1c8d2fd

structure bitcoinNetParams where
  net : Nat
  rpcPort : String
deriving DecidableEq, Repr

structure monacoinNetParams where
  net : Nat
  rpcPort : String
deriving DecidableEq, Repr

def bitcoinTestNetParams : bitcoinNetParams := ⟨TestNet3, "18334"⟩

def bitcoinMainNetParams : bitcoinNetParams := ⟨MainNet, "8334"⟩

def bitcoinSimNetParams : bitcoinNetParams := ⟨SimNet, "18556"⟩

def regTestNetParams : bitcoinNetParams := ⟨RegTest, "18334"⟩

def monacoinTestNetParams : monacoinNetParams := ⟨MonacoinTestNet4, "19400"⟩

def monacoinMainNetParams : monacoinNetParams := ⟨MonacoinMainNet, "9400"⟩

/-- `applyMonacoinParams`: copies the monacoin network's parameters
(among them the network magic, cast to a `BitcoinNet`) onto a
btcsuite-typed parameter record. -/
def applyMonacoinParams (p : bitcoinNetParams) (m : monacoinNetParams) :
    bitcoinNetParams :=
  { p with net := m.net, rpcPort := m.rpcPort }

/-- `isTestnet`: switch on `params.Params.Net` with cases
`bitcoinWire.TestNet3` and `bitcoinWire.BitcoinNet(monacoinWire.TestNet4)`. -/
def isTestnet (p : bitcoinNetParams) : Bool :=
  decide (p.net = TestNet3 ∨ p.net = MonacoinTestNet4)

end Chainparams

/-! ### Concrete test scenario

The inputs of the repository's end-to-end nursery test
(`createOutgoingRes`, `createCommitmentRes`): CLTV expiry 125, CSV
delay 2, amount 10000, channel point the zero outpoint. -/

def testChanPoint : OutPoint := ⟨List.replicate 32 0, 0⟩

/-- Stand-in bytes for the pre-signed second-level timeout transaction. -/
def timeoutTx0 : Tx := [1, 2, 3]

def signDesc0 : SignDescriptor := ⟨[], [], [], 10000, [], 1⟩

/-- The HTLC outpoint on the commitment transaction. -/
def htlcOp0 : OutPoint := ⟨[42], 0⟩

/-- `createOutgoingRes(onLocalCommitment=true)`: carries a signed
timeout transaction. -/
def outgoingResLocal : OutgoingHtlcResolution :=
  ⟨125, 2, 10000, signDesc0, some timeoutTx0, htlcOp0⟩

/-- `createOutgoingRes(onLocalCommitment=false)`: `ClaimOutpoint` set,
no signed timeout transaction. -/
def outgoingResRemote : OutgoingHtlcResolution :=
  ⟨125, 2, 10000, signDesc0, none, htlcOp0⟩

/-- The tracked output after its timeout transaction confirms at 126. -/
def kidC1 : kidOutput :=
  { (makeBaby testChanPoint outgoingResLocal timeoutTx0).kid with confHeight := 126 }

def sweepTxC1 : Tx := buildSweep [kidC1]

/-- The event trace of scenario S1: incubate, CLTV epoch, timeout
confirmation, maturity epoch, sweep confirmation. -/
def traceC1 : List Event :=
  [ Event.incubate testChanPoint none [outgoingResLocal],
    Event.epoch 125,
    Event.conf timeoutTx0 126,
    Event.epoch 128,
    Event.conf sweepTxC1 129 ]

instance {ε α : Type} [DecidableEq ε] [DecidableEq α] : DecidableEq (Except ε α) :=
  fun a b =>
    match a, b with
    | .error x, .error y =>
        if h : x = y then isTrue (by rw [h])
        else isFalse (fun hc => h (by cases hc; rfl))
    | .ok x, .ok y =>
        if h : x = y then isTrue (by rw [h])
        else isFalse (fun hc => h (by cases hc; rfl))
    | .error _, .ok _ => isFalse (fun hc => by cases hc)
    | .ok _, .error _ => isFalse (fun hc => by cases hc)


/-- The remote-commit HTLC output once its claim outpoint's txid
confirms at height 124. -/
def kidC5 : kidOutput :=
  { makeRemoteHtlcKid testChanPoint outgoingResRemote with confHeight := 124 }

/-- Scenario S2 events: incubate the remote-commit resolution, confirm
the commitment transaction (registered under the claim outpoint's
hash), reach the maturity height. -/
def traceC5 : List Event :=
  [ Event.incubate testChanPoint none [outgoingResRemote],
    Event.conf htlcOp0.hash 124,
    Event.epoch 126 ]

/-- A channel point never handed to `IncubateOutputs` in the scenarios. -/
def otherChanPoint : OutPoint := ⟨[9, 9], 7⟩

/-- No confirmation event for txid `tx` occurs in the trace. -/
def noConfOf (tx : Tx) (es : List Event) : Bool :=
  es.all (fun e =>
    match e with
    | Event.conf txid _ => !(decide (txid = tx))
    | _ => true)

/-- The broadcasts that a restart must be able to re-derive from the
persistent store: timeout transactions of expired CRIB babies and
finalized sweep transactions (spec, sections 4.2 and 5). -/
def InvPub (c : Core) (log : List Act) : Prop :=
  (∀ b ∈ c.store.cribs, b.expiry ≤ c.tip →
      Act.publishTimeout b.timeoutTx ∈ log) ∧
  (∀ p ∈ c.store.finalized, Act.publishSweep p.1 p.2 ∈ log)

/-! ### Serialization round-trip lemmas -/

theorem decNat_encNat (n : Nat) (s : List Nat) :
    decNat (encNat n ++ s) = some (n, s) := by
  have hlen : (Nat.digits 256 n).length ≤ (Nat.digits 256 n ++ s).length := by
    rw [List.length_append]; exact Nat.le_add_right _ _
  simp only [encNat, decNat, List.cons_append, if_pos hlen,
    List.take_left, List.drop_left]
  rw [Nat.ofDigits_digits]

theorem decBytes_encBytes (l s : List Nat) :
    decBytes (encBytes l ++ s) = some (l, s) := by
  have hlen : l.length ≤ (l ++ s).length := by
    rw [List.length_append]; exact Nat.le_add_right _ _
  simp only [encBytes, decBytes, List.append_assoc, decNat_encNat,
    if_pos hlen, List.take_left, List.drop_left]

theorem WitnessType.ofTag_toTag (w : WitnessType) :
    WitnessType.ofTag w.toTag = some w := by
  cases w <;> rfl

theorem outPoint_decode_encode (o : OutPoint) (s : List Nat) :
    OutPoint.decode (OutPoint.encode o ++ s) = some (o, s) := by
  simp only [OutPoint.encode, OutPoint.decode, List.append_assoc,
    decBytes_encBytes, decNat_encNat]

theorem signDescriptor_decode_encode (d : SignDescriptor) (s : List Nat) :
    SignDescriptor.decode (SignDescriptor.encode d ++ s) = some (d, s) := by
  simp only [SignDescriptor.encode, SignDescriptor.decode, List.append_assoc,
    decBytes_encBytes, decNat_encNat]

theorem kidOutput_decode_encode (k : kidOutput) (s : List Nat) :
    kidOutput.Decode (kidOutput.Encode k ++ s) = some (k, s) := by
  simp only [kidOutput.Encode, kidOutput.Decode, List.cons_append,
    List.append_assoc, decNat_encNat, outPoint_decode_encode,
    signDescriptor_decode_encode, WitnessType.ofTag_toTag]

theorem babyOutput_decode_encode (b : babyOutput) (s : List Nat) :
    babyOutput.Decode (babyOutput.Encode b ++ s) = some (b, s) := by
  simp only [babyOutput.Encode, babyOutput.Decode, List.append_assoc,
    kidOutput_decode_encode, decNat_encNat, decBytes_encBytes]

/-! ### Claim theorems: chain parameters and serialization -/

/-- C10: `isTestnet(params)` returns true if and only if `params.Net`
equals Bitcoin's TestNet3 network magic or Monacoin's TestNet4 network
magic (cast to a `BitcoinNet`); on the Bitcoin and Monacoin mainnet,
simnet and regtest parameter sets it returns false. -/
theorem isTestnet_correct :
    (∀ p : Chainparams.bitcoinNetParams,
        Chainparams.isTestnet p = true ↔
          (p.net = Chainparams.TestNet3 ∨ p.net = Chainparams.MonacoinTestNet4)) ∧
    Chainparams.isTestnet Chainparams.bitcoinTestNetParams = true ∧
    Chainparams.isTestnet
      (Chainparams.applyMonacoinParams Chainparams.bitcoinTestNetParams
        Chainparams.monacoinTestNetParams) = true ∧
    Chainparams.isTestnet Chainparams.bitcoinMainNetParams = false ∧
    Chainparams.isTestnet
      (Chainparams.applyMonacoinParams Chainparams.bitcoinMainNetParams
        Chainparams.monacoinMainNetParams) = false ∧
    Chainparams.isTestnet Chainparams.bitcoinSimNetParams = false ∧
    Chainparams.isTestnet Chainparams.regTestNetParams = false := by
  refine ⟨fun p => ?_, by decide, by decide, by decide, by decide, by decide, by decide⟩
  simp [Chainparams.isTestnet]

/-- C2: for every `kidOutput` and every `babyOutput` x, decoding the
bytes produced by encoding x yields a record equal to x field for
field, for all values of amount, outpoint, witness type, sign
descriptor, CSV delay, confirmation height, origin channel point and
(for babies) expiry and signed timeout transaction.  Stated with an
arbitrary trailing buffer `s`; `s = []` gives the exact round trip. -/
theorem serialization_roundtrip :
    (∀ (k : kidOutput) (s : List Nat),
        kidOutput.Decode (kidOutput.Encode k ++ s) = some (k, s)) ∧
    (∀ (b : babyOutput) (s : List Nat),
        babyOutput.Decode (babyOutput.Encode b ++ s) = some (b, s)) :=
  ⟨kidOutput_decode_encode, babyOutput_decode_encode⟩

/-! ### Claim theorems: concrete nursery scenarios -/

/-- C1: for the incubated outgoing HTLC on the local commitment (CLTV
125, CSV 2, amount 10000): the epoch at height 125 broadcasts the
pre-signed timeout transaction; its confirmation at 126 moves the
output from CRIB to KINDERGARTEN; the epoch at height 128 broadcasts a
sweep transaction for the output; the sweep confirmation at 129
graduates the output, after which `NurseryReport` for the channel
returns `ErrContractNotFound`. -/
theorem outgoing_htlc_local_lifecycle :
    Act.publishTimeout timeoutTx0 ∈
      emits (coreRun Core.init (traceC1.take 1)) (Event.epoch 125) ∧
    ((coreRun Core.init (traceC1.take 3)).store.cribs = [] ∧
      kidC1 ∈ (coreRun Core.init (traceC1.take 3)).store.kinders) ∧
    Act.publishSweep 128 sweepTxC1 ∈
      emits (coreRun Core.init (traceC1.take 3)) (Event.epoch 128) ∧
    ((coreRun Core.init traceC1).store.kinders = [] ∧
      (coreRun Core.init traceC1).store.ListChannels = [] ∧
      NurseryReport (coreRun Core.init traceC1).store testChanPoint =
        Except.error NurseryError.contractNotFound) :=
  ⟨by decide, by decide, by decide, by decide⟩

/-- C5 (supporting theorem for the spec-modelled report): the limbo
balance reported for a channel is the sum of the amounts of its
non-graduated outputs, and on the concrete scenarios it equals 10000
immediately after `IncubateOutputs` returns — including the
remote-commit HTLC still awaiting confirmation in PRESCHOOL — and stays
10000 after the confirmation and after the sweep broadcast, until the
sweep confirms. -/
theorem limbo_balance_spec_model :
    (∀ (st : Store) (cp : OutPoint) (rep : contractMaturityReport),
        NurseryReport st cp = Except.ok rep →
          rep.limboBalance =
            ((chanCribs st cp).map (fun b => b.kid.amt)).sum +
              sumAmts (chanPreschools st cp) + sumAmts (chanKinders st cp)) ∧
    (NurseryReport (coreRun Core.init (traceC5.take 1)).store testChanPoint).map
        contractMaturityReport.limboBalance = Except.ok 10000 ∧
    (NurseryReport (coreRun Core.init (traceC5.take 2)).store testChanPoint).map
        contractMaturityReport.limboBalance = Except.ok 10000 ∧
    Act.publishSweep 126 (buildSweep [kidC5]) ∈
      emits (coreRun Core.init (traceC5.take 2)) (Event.epoch 126) ∧
    (NurseryReport (coreRun Core.init traceC5).store testChanPoint).map
        contractMaturityReport.limboBalance = Except.ok 10000 ∧
    (NurseryReport (coreRun Core.init (traceC1.take 1)).store testChanPoint).map
        contractMaturityReport.limboBalance = Except.ok 10000 := by
  refine ⟨fun st cp rep hrep => ?_, by decide, by decide, by decide, by decide, by decide⟩
  unfold NurseryReport at hrep
  by_cases hc : chanCribs st cp = [] ∧ chanPreschools st cp = [] ∧
      chanKinders st cp = [] ∧ chanGrads st cp = []
  · rw [if_pos hc] at hrep
    exact absurd hrep (by simp)
  · rw [if_neg hc] at hrep
    cases hrep
    rfl

/-- C7: the per-HTLC `stage` reported is 1 for CRIB entries and 2 for
PRESCHOOL and KINDERGARTEN entries (PRESCHOOL folded into stage 2): a
remote-commit HTLC reports stage 2 from intake onward, a local-commit
HTLC reports stage 1 until its timeout transaction confirms and stage 2
afterwards. -/
theorem report_stage_folding :
    (∀ b : babyOutput, (cribEntry b).stage = 1) ∧
    (∀ k : kidOutput, (preschoolEntry k).stage = 2) ∧
    (∀ k : kidOutput, (kinderEntry k).stage = 2) ∧
    (NurseryReport (coreRun Core.init (traceC5.take 1)).store testChanPoint).map
        (fun r => r.htlcs.map htlcMaturityReport.stage) = Except.ok [2] ∧
    (NurseryReport (coreRun Core.init (traceC5.take 2)).store testChanPoint).map
        (fun r => r.htlcs.map htlcMaturityReport.stage) = Except.ok [2] ∧
    (NurseryReport (coreRun Core.init (traceC1.take 1)).store testChanPoint).map
        (fun r => r.htlcs.map htlcMaturityReport.stage) = Except.ok [1] ∧
    (NurseryReport (coreRun Core.init (traceC1.take 2)).store testChanPoint).map
        (fun r => r.htlcs.map htlcMaturityReport.stage) = Except.ok [1] ∧
    (NurseryReport (coreRun Core.init (traceC1.take 3)).store testChanPoint).map
        (fun r => r.htlcs.map htlcMaturityReport.stage) = Except.ok [2] :=
  ⟨fun _ => rfl, fun _ => rfl, fun _ => rfl,
    by decide, by decide, by decide, by decide, by decide⟩

/-- C6: `NurseryReport` returns `ErrContractNotFound` exactly when the
store holds no record for the channel; a channel never incubated gets
the error, and after the last output graduates the channel record is
pruned, `ListChannels` returns no channels and the height index is
empty. -/
theorem report_notfound_iff_no_record :
    (∀ (st : Store) (cp : OutPoint),
        NurseryReport st cp = Except.error NurseryError.contractNotFound ↔
          (chanCribs st cp = [] ∧ chanPreschools st cp = [] ∧
            chanKinders st cp = [] ∧ chanGrads st cp = [])) ∧
    NurseryReport (coreRun Core.init (traceC1.take 1)).store otherChanPoint =
      Except.error NurseryError.contractNotFound ∧
    (NurseryReport (coreRun Core.init traceC1).store testChanPoint =
        Except.error NurseryError.contractNotFound ∧
      (coreRun Core.init traceC1).store.ListChannels = [] ∧
      ∀ h, (coreRun Core.init traceC1).store.HeightsBelowOrEqual h = []) := by
  refine ⟨fun st cp => ?_, by decide, by decide, by decide, fun h => ?_⟩
  · unfold NurseryReport
    by_cases hc : chanCribs st cp = [] ∧ chanPreschools st cp = [] ∧
        chanKinders st cp = [] ∧ chanGrads st cp = []
    · rw [if_pos hc]
      exact ⟨fun _ => hc, fun _ => rfl⟩
    · rw [if_neg hc]
      exact ⟨fun hcontra => absurd hcontra (by simp), fun hcontra => absurd hcontra hc⟩
  · have hk : (coreRun Core.init traceC1).store.kinders = [] := by decide
    have hc : (coreRun Core.init traceC1).store.cribs = [] := by decide
    unfold Store.HeightsBelowOrEqual
    rw [hk, hc]
    simp

/-- C8: for a remote-commit outgoing HTLC resolution (`ClaimOutpoint`
set, no signed timeout transaction) handed to `IncubateOutputs` under a
fresh outpoint, the nursery registers its confirmation notification on
the claim outpoint's hash treated as a txid, and a confirmation
delivered for that hash moves the output from PRESCHOOL to KINDERGARTEN
via `PreschoolToKinder`. -/
theorem remote_htlc_claim_conf (c : Core) (cp : OutPoint)
    (r : OutgoingHtlcResolution) (h : Nat)
    (hremote : r.signedTimeoutTx = none)
    (hfresh : c.store.hasOutpoint r.claimOutpoint = false) :
    Act.registerConf r.claimOutpoint.hash ∈
      emits c (Event.incubate cp none [r]) ∧
    { makeRemoteHtlcKid cp r with confHeight := h } ∈
      ((coreStep c (Event.incubate cp none [r])).store.PreschoolToKinder
        r.claimOutpoint.hash h).kinders ∧
    ∀ k ∈ ((coreStep c (Event.incubate cp none [r])).store.PreschoolToKinder
        r.claimOutpoint.hash h).preschools, k.outpoint.hash ≠ r.claimOutpoint.hash := by
  have hcls : classifyKids cp none [r] = [makeRemoteHtlcKid cp r] := by
    simp [classifyKids, hremote]
  have hbab : classifyBabies cp [r] = [] := by
    simp [classifyBabies, hremote]
  have hop : (makeRemoteHtlcKid cp r).outpoint = r.claimOutpoint := rfl
  have hnew : (incubateResult c cp none [r]).2 = [makeRemoteHtlcKid cp r] := by
    simp [incubateResult, Store.Incubate, hcls, hop, hfresh]
  have hps : (coreStep c (Event.incubate cp none [r])).store.preschools =
      c.store.preschools ++ [makeRemoteHtlcKid cp r] := by
    simp [coreStep, incubateResult, Store.Incubate, hcls, hbab, hop, hfresh]
  refine ⟨?_, ?_, ?_⟩
  · show Act.registerConf r.claimOutpoint.hash ∈
      ((incubateResult c cp none [r]).2).map (fun k => Act.registerConf k.outpoint.hash)
    rw [hnew]
    simp [hop]
  · unfold Store.PreschoolToKinder
    refine List.mem_append.mpr (Or.inr ?_)
    refine List.mem_map.mpr ⟨makeRemoteHtlcKid cp r, List.mem_filter.mpr ⟨?_, ?_⟩, rfl⟩
    · rw [hps]; exact List.mem_append.mpr (Or.inr (List.mem_singleton.mpr rfl))
    · simp [hop]
  · intro k hk
    unfold Store.PreschoolToKinder at hk
    have := List.mem_filter.mp hk
    simpa using this.2

/-- C8 witness: the concrete remote-commit scenario input. -/
theorem remote_htlc_claim_conf_witness :
    Act.registerConf outgoingResRemote.claimOutpoint.hash ∈
      emits Core.init (Event.incubate testChanPoint none [outgoingResRemote]) ∧
    { makeRemoteHtlcKid testChanPoint outgoingResRemote with confHeight := 124 } ∈
      ((coreStep Core.init
          (Event.incubate testChanPoint none [outgoingResRemote])).store.PreschoolToKinder
        outgoingResRemote.claimOutpoint.hash 124).kinders ∧
    ∀ k ∈ ((coreStep Core.init
          (Event.incubate testChanPoint none [outgoingResRemote])).store.PreschoolToKinder
        outgoingResRemote.claimOutpoint.hash 124).preschools,
      k.outpoint.hash ≠ outgoingResRemote.claimOutpoint.hash :=
  remote_htlc_claim_conf Core.init testChanPoint outgoingResRemote 124 rfl (by decide)

/-- C9: on startup (the `restart` event), for every CRIB baby whose CLTV
expiry is at or below the best-known tip the nursery re-broadcasts that
baby's pre-signed timeout transaction, and it re-publishes every
finalized sweep transaction still recorded (confirmation removes the
record via `GraduateKinder`). -/
theorem startup_rebroadcast (c : Core) :
    (∀ b ∈ c.store.cribs, b.expiry ≤ c.tip →
        Act.publishTimeout b.timeoutTx ∈ emits c Event.restart) ∧
    (∀ p ∈ c.store.finalized,
        Act.publishSweep p.1 p.2 ∈ emits c Event.restart) := by
  constructor
  · intro b hb hexp
    have hmem : Act.publishTimeout b.timeoutTx ∈
        (c.store.cribs.filter (fun x => decide (x.expiry ≤ c.tip))).map
          (fun x => Act.publishTimeout x.timeoutTx) :=
      List.mem_map.mpr ⟨b, List.mem_filter.mpr ⟨hb, by simpa using hexp⟩, rfl⟩
    show _ ∈ restartActions c
    unfold restartActions
    simp only [List.mem_append]
    tauto
  · intro p hp
    have hmem : Act.publishSweep p.1 p.2 ∈
        c.store.finalized.map (fun q => Act.publishSweep q.1 q.2) :=
      List.mem_map.mpr ⟨p, hp, rfl⟩
    show _ ∈ restartActions c
    unfold restartActions
    simp only [List.mem_append]
    tauto

/-- C9 witness: restart right after the CLTV epoch re-broadcasts the
timeout transaction; restart right after finalization re-publishes the
finalized sweep transaction. -/
theorem startup_rebroadcast_witness :
    Act.publishTimeout (makeBaby testChanPoint outgoingResLocal timeoutTx0).timeoutTx ∈
      emits (coreRun Core.init (traceC1.take 2)) Event.restart ∧
    Act.publishSweep 128 sweepTxC1 ∈
      emits (coreRun Core.init (traceC1.take 4)) Event.restart :=
  ⟨(startup_rebroadcast (coreRun Core.init (traceC1.take 2))).1
      (makeBaby testChanPoint outgoingResLocal timeoutTx0) (by decide) (by decide),
    (startup_rebroadcast (coreRun Core.init (traceC1.take 4))).2
      (128, sweepTxC1) (by decide)⟩

/-! ### Finalization-index lemmas -/

theorem lookupFin_mem (h : Nat) (l : List (Nat × Tx)) (tx : Tx)
    (hl : lookupFin h l = some tx) : (h, tx) ∈ l := by
  induction l with
  | nil => simp [lookupFin] at hl
  | cons p ps ih =>
    unfold lookupFin at hl
    by_cases hp : p.1 = h
    · rw [if_pos hp] at hl
      cases hl
      have hpe : (h, p.2) = p := by rw [← hp]
      rw [hpe]
      exact List.mem_cons_self p ps
    · rw [if_neg hp] at hl
      exact List.mem_cons_of_mem p (ih hl)

theorem lookupFin_none (h : Nat) (l : List (Nat × Tx))
    (hl : lookupFin h l = none) : ∀ tx, (h, tx) ∉ l := by
  induction l with
  | nil => simp
  | cons p ps ih =>
    unfold lookupFin at hl
    by_cases hp : p.1 = h
    · rw [if_pos hp] at hl
      exact absurd hl (by simp)
    · rw [if_neg hp] at hl
      intro tx hmem
      rcases List.mem_cons.mp hmem with heq | hmem2
      · exact hp (by rw [← heq])
      · exact ih hl tx hmem2

theorem graduateClass_frame (st : Store) (x : Nat) :
    (graduateClass st x).1.cribs = st.cribs ∧
    (graduateClass st x).1.preschools = st.preschools ∧
    (graduateClass st x).1.kinders = st.kinders ∧
    (graduateClass st x).1.grads = st.grads ∧
    (graduateClass st x).1.lastGradHeight = st.lastGradHeight := by
  unfold graduateClass
  by_cases hk : (st.kinders.filter (fun k => decide (maturityHeight k = x))).isEmpty = true
  · rw [if_pos hk]
    exact ⟨rfl, rfl, rfl, rfl, rfl⟩
  · rw [if_neg hk]
    cases hlf : lookupFin x st.finalized with
    | some t => exact ⟨rfl, rfl, rfl, rfl, rfl⟩
    | none => exact ⟨rfl, rfl, rfl, rfl, rfl⟩

theorem graduateClasses_frame (hs : List Nat) (st : Store) :
    (graduateClasses st hs).1.cribs = st.cribs ∧
    (graduateClasses st hs).1.preschools = st.preschools ∧
    (graduateClasses st hs).1.kinders = st.kinders ∧
    (graduateClasses st hs).1.grads = st.grads ∧
    (graduateClasses st hs).1.lastGradHeight = st.lastGradHeight := by
  induction hs generalizing st with
  | nil => exact ⟨rfl, rfl, rfl, rfl, rfl⟩
  | cons x xs ih =>
    have h1 := graduateClass_frame st x
    have h2 := ih (graduateClass st x).1
    unfold graduateClasses
    refine ⟨?_, ?_, ?_, ?_, ?_⟩
    · rw [h2.1, h1.1]
    · rw [h2.2.1, h1.2.1]
    · rw [h2.2.2.1, h1.2.2.1]
    · rw [h2.2.2.2.1, h1.2.2.2.1]
    · rw [h2.2.2.2.2, h1.2.2.2.2]

theorem graduateClass_fin (st : Store) (x h : Nat) (tx : Tx)
    (hmem : (h, tx) ∈ st.finalized)
    (huniq : ∀ tx', (h, tx') ∈ st.finalized → tx' = tx) :
    ((h, tx) ∈ (graduateClass st x).1.finalized ∧
      (∀ tx', (h, tx') ∈ (graduateClass st x).1.finalized → tx' = tx)) ∧
    ∀ tx', Act.publishSweep h tx' ∈ (graduateClass st x).2 → tx' = tx := by
  unfold graduateClass
  by_cases hk : (st.kinders.filter (fun k => decide (maturityHeight k = x))).isEmpty = true
  · rw [if_pos hk]
    exact ⟨⟨hmem, huniq⟩, by simp⟩
  · rw [if_neg hk]
    cases hlf : lookupFin x st.finalized with
    | some t =>
      refine ⟨⟨hmem, huniq⟩, fun tx' hmem2 => ?_⟩
      simp only [List.mem_cons, List.not_mem_nil, or_false] at hmem2
      rcases hmem2 with heq | heq
      · have hx : x = h := (Act.publishSweep.injEq _ _ _ _).mp heq.symm |>.1
        have ht : t = tx' := ((Act.publishSweep.injEq _ _ _ _).mp heq.symm).2
        subst hx
        exact ht ▸ huniq t (lookupFin_mem x st.finalized t hlf)
      · exact absurd heq (by simp)
    | none =>
      have hxh : x ≠ h := by
        intro hcontra
        subst hcontra
        exact lookupFin_none x st.finalized hlf tx hmem
      refine ⟨⟨List.mem_append_left _ hmem, fun tx' hmem2 => ?_⟩, fun tx' hpub => ?_⟩
      · rcases List.mem_append.mp hmem2 with hin | hin
        · exact huniq tx' hin
        · simp only [List.mem_singleton, Prod.mk.injEq] at hin
          exact absurd hin.1.symm hxh
      · simp only [List.mem_cons, List.not_mem_nil, or_false] at hpub
        rcases hpub with heq | heq
        · exact absurd ((Act.publishSweep.injEq _ _ _ _).mp heq).1 (Ne.symm hxh)
        · exact absurd heq (by simp)

theorem graduateClasses_fin (hs : List Nat) (st : Store) (h : Nat) (tx : Tx)
    (hmem : (h, tx) ∈ st.finalized)
    (huniq : ∀ tx', (h, tx') ∈ st.finalized → tx' = tx) :
    ((h, tx) ∈ (graduateClasses st hs).1.finalized ∧
      (∀ tx', (h, tx') ∈ (graduateClasses st hs).1.finalized → tx' = tx)) ∧
    ∀ tx', Act.publishSweep h tx' ∈ (graduateClasses st hs).2 → tx' = tx := by
  induction hs generalizing st with
  | nil => exact ⟨⟨hmem, huniq⟩, by simp [graduateClasses]⟩
  | cons x xs ih =>
    have h1 := graduateClass_fin st x h tx hmem huniq
    have h2 := ih (graduateClass st x).1 h1.1.1 h1.1.2
    unfold graduateClasses
    refine ⟨h2.1, fun tx' hpub => ?_⟩
    rcases List.mem_append.mp hpub with hin | hin
    · exact h1.2 tx' hin
    · exact h2.2 tx' hin

theorem GraduateKinder_fin (st : Store) (x : Nat) :
    (st.GraduateKinder x).finalized =
      st.finalized.filter (fun p => !(decide (p.1 = x))) := rfl

theorem GraduateKinder_frame (st : Store) (x : Nat) :
    (st.GraduateKinder x).cribs = st.cribs ∧
    (st.GraduateKinder x).preschools = st.preschools ∧
    (st.GraduateKinder x).lastGradHeight = st.lastGradHeight :=
  ⟨rfl, rfl, rfl⟩

theorem foldGrad_frame (gs : List Nat) (st : Store) :
    (gs.foldl (fun s hh => s.GraduateKinder hh) st).cribs = st.cribs ∧
    (gs.foldl (fun s hh => s.GraduateKinder hh) st).preschools = st.preschools ∧
    (gs.foldl (fun s hh => s.GraduateKinder hh) st).lastGradHeight = st.lastGradHeight := by
  induction gs generalizing st with
  | nil => exact ⟨rfl, rfl, rfl⟩
  | cons x xs ih =>
    have h2 := ih (st.GraduateKinder x)
    exact ⟨h2.1, h2.2.1, h2.2.2⟩

theorem foldGrad_fin_sub (gs : List Nat) (st : Store) :
    ∀ p ∈ (gs.foldl (fun s hh => s.GraduateKinder hh) st).finalized,
      p ∈ st.finalized := by
  induction gs generalizing st with
  | nil => exact fun p hp => hp
  | cons x xs ih =>
    intro p hp
    have := ih (st.GraduateKinder x) p hp
    rw [GraduateKinder_fin] at this
    exact List.mem_of_mem_filter this

theorem foldGrad_fin_mem (gs : List Nat) (st : Store) (h : Nat) (tx : Tx)
    (hmem : (h, tx) ∈ st.finalized) (hnot : h ∉ gs) :
    (h, tx) ∈ (gs.foldl (fun s hh => s.GraduateKinder hh) st).finalized := by
  induction gs generalizing st with
  | nil => exact hmem
  | cons x xs ih =>
    have hx : h ≠ x := fun hc => hnot (hc ▸ List.mem_cons_self x xs)
    have hmem1 : (h, tx) ∈ (st.GraduateKinder x).finalized := by
      rw [GraduateKinder_fin]
      exact List.mem_filter.mpr ⟨hmem, by simpa using hx⟩
    exact ih (st.GraduateKinder x) hmem1 (fun hc => hnot (List.mem_cons_of_mem x hc))

theorem stepFin (c : Core) (e : Event) (h : Nat) (tx : Tx)
    (hmem : (h, tx) ∈ c.store.finalized)
    (huniq : ∀ tx', (h, tx') ∈ c.store.finalized → tx' = tx)
    (hne : ∀ txid hh, e = Event.conf txid hh → txid ≠ tx) :
    ((h, tx) ∈ (coreStep c e).store.finalized ∧
      ∀ tx', (h, tx') ∈ (coreStep c e).store.finalized → tx' = tx) ∧
    ∀ tx', Act.publishSweep h tx' ∈ emits c e → tx' = tx := by
  cases e with
  | incubate cp cr hs =>
    refine ⟨⟨hmem, huniq⟩, fun tx' hpub => ?_⟩
    have hpub2 : Act.publishSweep h tx' ∈
        ((incubateResult c cp cr hs).2).map (fun k => Act.registerConf k.outpoint.hash) :=
      hpub
    obtain ⟨k, _, hk⟩ := List.mem_map.mp hpub2
    exact absurd hk (by simp)
  | epoch hh =>
    have hg := graduateClasses_fin (c.store.HeightsBelowOrEqual hh) c.store h tx hmem huniq
    refine ⟨hg.1, fun tx' hpub => ?_⟩
    have hpub2 : Act.publishSweep h tx' ∈
        cribActions (c.store.cribs.filter (fun b => decide (b.expiry ≤ hh))) ++
          (graduateClasses c.store (c.store.HeightsBelowOrEqual hh)).2 := hpub
    rcases List.mem_append.mp hpub2 with hin | hin
    · unfold cribActions at hin
      rcases List.mem_append.mp hin with hin2 | hin2 <;>
      · obtain ⟨b, _, hb⟩ := List.mem_map.mp hin2
        exact absurd hb (by simp)
    · exact hg.2 tx' hin
  | conf txid hh =>
    have htx : txid ≠ tx := hne txid hh rfl
    have hnot : h ∉ sweepConfHeights
        ((c.store.CribToKinder txid hh).PreschoolToKinder txid hh) txid := by
      intro hcontra
      unfold sweepConfHeights at hcontra
      obtain ⟨p, hpf, hph⟩ := List.mem_map.mp hcontra
      obtain ⟨hpmem, hpd⟩ := List.mem_filter.mp hpf
      have hptx : p.2 = txid := by simpa using hpd
      have hpe : p = (h, txid) := by rw [← hph, ← hptx]
      rw [hpe] at hpmem
      exact htx (huniq txid hpmem)
    have hsurv : (h, tx) ∈ ((sweepConfHeights
        ((c.store.CribToKinder txid hh).PreschoolToKinder txid hh) txid).foldl
          (fun s x => s.GraduateKinder x)
          ((c.store.CribToKinder txid hh).PreschoolToKinder txid hh)).finalized :=
      foldGrad_fin_mem _ _ h tx hmem hnot
    have hsub := foldGrad_fin_sub (sweepConfHeights
        ((c.store.CribToKinder txid hh).PreschoolToKinder txid hh) txid)
        ((c.store.CribToKinder txid hh).PreschoolToKinder txid hh)
    exact ⟨⟨hsurv, fun tx' hmem2 => huniq tx' (hsub _ hmem2)⟩, fun tx' hpub => by
      simp [emits] at hpub⟩
  | restart =>
    refine ⟨⟨hmem, huniq⟩, fun tx' hpub => ?_⟩
    have hpub2 : Act.publishSweep h tx' ∈ restartActions c := hpub
    unfold restartActions at hpub2
    simp only [List.mem_append, List.mem_map, List.mem_filter] at hpub2
    rcases hpub2 with ((((⟨k, _, hk⟩ | ⟨b, _, hb⟩) | ⟨b, _, hb⟩) | ⟨p, hp, hpe⟩) | ⟨p, hp, hpe⟩)
    · exact absurd hk (by simp)
    · exact absurd hb (by simp)
    · exact absurd hb (by simp)
    · have h1 : p.1 = h := ((Act.publishSweep.injEq _ _ _ _).mp hpe).1
      have h2 : p.2 = tx' := ((Act.publishSweep.injEq _ _ _ _).mp hpe).2
      have hpe2 : p = (h, tx') := by rw [← h1, ← h2]
      rw [hpe2] at hp
      exact huniq tx' hp
    · exact absurd hpe (by simp)

/-- C4: once `FinalizeKinder(h, tx)` has committed (the finalization
index holds `tx`, and only `tx`, for height `h`), every transaction the
nursery publishes for height `h` over any subsequent event sequence —
epochs, confirmations of other transactions, and any number of
restarts — consists of exactly the bytes of `tx`, and the record
survives until a confirmation of `tx` itself triggers
`GraduateKinder(h)` (excluded here by `noConfOf`). -/
theorem finalized_sweep_stable (c : Core) (h : Nat) (tx : Tx) (es : List Event)
    (hmem : (h, tx) ∈ c.store.finalized)
    (huniq : ∀ tx', (h, tx') ∈ c.store.finalized → tx' = tx)
    (hng : noConfOf tx es = true) :
    ((h, tx) ∈ (coreRun c es).store.finalized ∧
      ∀ tx', (h, tx') ∈ (coreRun c es).store.finalized → tx' = tx) ∧
    ∀ tx', Act.publishSweep h tx' ∈ emitsFrom c es → tx' = tx := by
  induction es generalizing c with
  | nil => exact ⟨⟨hmem, huniq⟩, by simp [emitsFrom]⟩
  | cons e es ih =>
    have hng2 : noConfOf tx es = true := by
      unfold noConfOf at hng ⊢
      rw [List.all_cons, Bool.and_eq_true] at hng
      exact hng.2
    have hnee : ∀ txid hh, e = Event.conf txid hh → txid ≠ tx := by
      intro txid hh hee
      unfold noConfOf at hng
      rw [List.all_cons, Bool.and_eq_true] at hng
      have := hng.1
      rw [hee] at this
      simpa using this
    have hstep := stepFin c e h tx hmem huniq hnee
    have hrest := ih (coreStep c e) hstep.1.1 hstep.1.2 hng2
    refine ⟨hrest.1, fun tx' hpub => ?_⟩
    have hpub2 : Act.publishSweep h tx' ∈ emits c e ++ emitsFrom (coreStep c e) es :=
      hpub
    rcases List.mem_append.mp hpub2 with hin | hin
    · exact hstep.2 tx' hin
    · exact hrest.2 tx' hin

/-- C4 witness: the concrete finalized class of scenario S1, followed by
a restart and a later epoch; every sweep published for height 128 is
`sweepTxC1`. -/
theorem finalized_sweep_stable_witness :
    (((128, sweepTxC1) ∈
        (coreRun (coreRun Core.init (traceC1.take 4))
          [Event.restart, Event.epoch 130]).store.finalized ∧
      ∀ tx', (128, tx') ∈
          (coreRun (coreRun Core.init (traceC1.take 4))
            [Event.restart, Event.epoch 130]).store.finalized → tx' = sweepTxC1) ∧
    ∀ tx', Act.publishSweep 128 tx' ∈
        emitsFrom (coreRun Core.init (traceC1.take 4))
          [Event.restart, Event.epoch 130] → tx' = sweepTxC1) :=
  finalized_sweep_stable (coreRun Core.init (traceC1.take 4)) 128 sweepTxC1
    [Event.restart, Event.epoch 130] (by decide)
    (fun tx' hmem => by
      have h2 : (128, tx') ∈ [(128, sweepTxC1)] := hmem
      simpa using List.mem_singleton.mp h2)
    (by decide)

/-! ### Restart-idempotence lemmas -/

theorem coreRun_append (l1 l2 : List Event) (c : Core) :
    coreRun c (l1 ++ l2) = coreRun (coreRun c l1) l2 := by
  induction l1 generalizing c with
  | nil => rfl
  | cons e es ih => exact ih (coreStep c e)

theorem emitsFrom_append (l1 l2 : List Event) (c : Core) :
    emitsFrom c (l1 ++ l2) = emitsFrom c l1 ++ emitsFrom (coreRun c l1) l2 := by
  induction l1 generalizing c with
  | nil => rfl
  | cons e es ih =>
    show emits c e ++ emitsFrom (coreStep c e) (es ++ l2) = _
    rw [ih (coreStep c e), ← List.append_assoc]
    rfl

theorem wfEvents_append (l1 l2 : List Event) (c : Core)
    (h : wfEvents c (l1 ++ l2) = true) :
    wfEvents c l1 = true ∧ wfEvents (coreRun c l1) l2 = true := by
  induction l1 generalizing c with
  | nil => exact ⟨rfl, h⟩
  | cons e es ih =>
    have h2 : (okEvent c e && wfEvents (coreStep c e) (es ++ l2)) = true := h
    rw [Bool.and_eq_true] at h2
    have hrec := ih (coreStep c e) h2.2
    refine ⟨?_, hrec.2⟩
    show (okEvent c e && wfEvents (coreStep c e) es) = true
    rw [Bool.and_eq_true]
    exact ⟨h2.1, hrec.1⟩

theorem graduateClass_fin_pub (st : Store) (x : Nat) :
    ∀ p ∈ (graduateClass st x).1.finalized,
      p ∈ st.finalized ∨ Act.publishSweep p.1 p.2 ∈ (graduateClass st x).2 := by
  unfold graduateClass
  by_cases hk : (st.kinders.filter (fun k => decide (maturityHeight k = x))).isEmpty = true
  · rw [if_pos hk]
    exact fun p hp => Or.inl hp
  · rw [if_neg hk]
    cases hlf : lookupFin x st.finalized with
    | some t => exact fun p hp => Or.inl hp
    | none =>
      intro p hp
      rcases List.mem_append.mp hp with hin | hin
      · exact Or.inl hin
      · right
        rw [List.mem_singleton.mp hin]
        simp

theorem graduateClasses_fin_pub (hs : List Nat) (st : Store) :
    ∀ p ∈ (graduateClasses st hs).1.finalized,
      p ∈ st.finalized ∨ Act.publishSweep p.1 p.2 ∈ (graduateClasses st hs).2 := by
  induction hs generalizing st with
  | nil => exact fun p hp => Or.inl hp
  | cons x xs ih =>
    intro p hp
    have hp2 : p ∈ (graduateClasses (graduateClass st x).1 xs).1.finalized := hp
    rcases ih (graduateClass st x).1 p hp2 with hin | hin
    · rcases graduateClass_fin_pub st x p hin with h2 | h2
      · exact Or.inl h2
      · refine Or.inr ?_
        show _ ∈ (graduateClass st x).2 ++ (graduateClasses (graduateClass st x).1 xs).2
        exact List.mem_append_left _ h2
    · refine Or.inr ?_
      show _ ∈ (graduateClass st x).2 ++ (graduateClasses (graduateClass st x).1 xs).2
      exact List.mem_append_right _ hin

theorem stepConf_cribs_sub (st : Store) (txid : List Nat) (h : Nat) :
    ∀ b ∈ (stepConf st txid h).cribs, b ∈ st.cribs := by
  intro b hb
  have hfold := (foldGrad_frame (sweepConfHeights
      ((st.CribToKinder txid h).PreschoolToKinder txid h) txid)
      ((st.CribToKinder txid h).PreschoolToKinder txid h)).1
  have hb2 : b ∈ ((st.CribToKinder txid h).PreschoolToKinder txid h).cribs := by
    have heq : (stepConf st txid h).cribs =
        ((st.CribToKinder txid h).PreschoolToKinder txid h).cribs := hfold
    rwa [heq] at hb
  have hb3 : b ∈ st.cribs.filter (fun x => !(decide (x.timeoutTx = txid))) := hb2
  exact List.mem_of_mem_filter hb3

theorem stepConf_fin_sub (st : Store) (txid : List Nat) (h : Nat) :
    ∀ p ∈ (stepConf st txid h).finalized, p ∈ st.finalized := by
  intro p hp
  exact foldGrad_fin_sub (sweepConfHeights
      ((st.CribToKinder txid h).PreschoolToKinder txid h) txid)
      ((st.CribToKinder txid h).PreschoolToKinder txid h) p hp

theorem invPub_step (c : Core) (e : Event) (log : List Act)
    (hok : okEvent c e = true) (hinv : InvPub c log) :
    InvPub (coreStep c e) (log ++ emits c e) := by
  obtain ⟨hcrib, hfin⟩ := hinv
  cases e with
  | incubate cp cr hs =>
    constructor
    · intro b hb hexp
      have hb2 : b ∈ c.store.cribs ++ (classifyBabies cp hs).filter
          (fun x => !(c.store.hasOutpoint x.kid.outpoint)) := hb
      rcases List.mem_append.mp hb2 with hin | hin
      · exact List.mem_append_left _ (hcrib b hin hexp)
      · have hbmem : b ∈ classifyBabies cp hs := List.mem_of_mem_filter hin
        have hall : ∀ x ∈ classifyBabies cp hs,
            (decide (c.tip < x.expiry)) = true := List.all_eq_true.mp hok
        have hlt : c.tip < b.expiry := of_decide_eq_true (hall b hbmem)
        have hle : b.expiry ≤ c.tip := hexp
        exact absurd (Nat.lt_of_lt_of_le hlt hle) (Nat.lt_irrefl _)
    · intro p hp
      exact List.mem_append_left _ (hfin p hp)
  | epoch hh =>
    constructor
    · intro b hb hexp
      have hcr : (coreStep c (Event.epoch hh)).store.cribs = c.store.cribs :=
        (graduateClasses_frame (c.store.HeightsBelowOrEqual hh) c.store).1
      have hb2 : b ∈ c.store.cribs := by rwa [hcr] at hb
      have hle : b.expiry ≤ hh := hexp
      refine List.mem_append_right _ ?_
      show _ ∈ cribActions (c.store.cribs.filter (fun x => decide (x.expiry ≤ hh))) ++
        (graduateClasses c.store (c.store.HeightsBelowOrEqual hh)).2
      refine List.mem_append_left _ ?_
      unfold cribActions
      refine List.mem_append_left _ ?_
      exact List.mem_map.mpr ⟨b, List.mem_filter.mpr ⟨hb2, decide_eq_true hle⟩, rfl⟩
    · intro p hp
      have hp2 : p ∈ (graduateClasses c.store (c.store.HeightsBelowOrEqual hh)).1.finalized :=
        hp
      rcases graduateClasses_fin_pub (c.store.HeightsBelowOrEqual hh) c.store p hp2 with
        hin | hin
      · exact List.mem_append_left _ (hfin p hin)
      · refine List.mem_append_right _ ?_
        show _ ∈ cribActions (c.store.cribs.filter (fun x => decide (x.expiry ≤ hh))) ++
          (graduateClasses c.store (c.store.HeightsBelowOrEqual hh)).2
        exact List.mem_append_right _ hin
  | conf txid hh =>
    constructor
    · intro b hb hexp
      exact List.mem_append_left _
        (hcrib b (stepConf_cribs_sub c.store txid hh b hb) hexp)
    · intro p hp
      exact List.mem_append_left _ (hfin p (stepConf_fin_sub c.store txid hh p hp))
  | restart =>
    exact ⟨fun b hb hexp => List.mem_append_left _ (hcrib b hb hexp),
      fun p hp => List.mem_append_left _ (hfin p hp)⟩

theorem invPub_run (es : List Event) (c : Core) (log : List Act)
    (hwf : wfEvents c es = true) (hinv : InvPub c log) :
    InvPub (coreRun c es) (log ++ emitsFrom c es) := by
  induction es generalizing c log with
  | nil =>
    have h1 : emitsFrom c [] = [] := rfl
    rw [h1, List.append_nil]
    exact hinv
  | cons e es ih =>
    have h2 : (okEvent c e && wfEvents (coreStep c e) es) = true := hwf
    rw [Bool.and_eq_true] at h2
    have hstep := invPub_step c e log h2.1 hinv
    have hrec := ih (coreStep c e) (log ++ emits c e) h2.2 hstep
    show InvPub (coreRun (coreStep c e) es)
      (log ++ (emits c e ++ emitsFrom (coreStep c e) es))
    rwa [← List.append_assoc]

theorem restart_pubs_mem (c : Core) (log : List Act) (hinv : InvPub c log)
    (a : Act) (ha : a ∈ restartActions c) (hpub : a.isPublish = true) : a ∈ log := by
  unfold restartActions at ha
  simp only [List.mem_append, List.mem_map, List.mem_filter] at ha
  rcases ha with ((((⟨k, _, hk⟩ | ⟨b, hb, hbe⟩) | ⟨b, _, hbe⟩) | ⟨p, hp, hpe⟩) | ⟨p, _, hpe⟩)
  · rw [← hk] at hpub
    simp [Act.isPublish] at hpub
  · rw [← hbe]
    exact hinv.1 b hb.1 (of_decide_eq_true hb.2)
  · rw [← hbe] at hpub
    simp [Act.isPublish] at hpub
  · rw [← hpe]
    exact hinv.2 p hp
  · rw [← hpe] at hpub
    simp [Act.isPublish] at hpub

/-- C3: for every well-formed event trace of the nursery and every point
between two store operations (event boundaries), stopping the nursery
at that point and restarting it (the `restart` event) produces the same
final store contents — in fact the same whole core state — and the same
set of published transactions as the uninterrupted execution; the only
difference in the publish log is retransmissions of identical
transaction bytes, so membership is preserved in both directions. -/
theorem restart_idempotent (es1 es2 : List Event)
    (hwf : wfEvents Core.init (es1 ++ es2) = true) :
    coreRun Core.init (es1 ++ Event.restart :: es2) =
      coreRun Core.init (es1 ++ es2) ∧
    ∀ a : Act, a.isPublish = true →
      (a ∈ emitsFrom Core.init (es1 ++ Event.restart :: es2) ↔
        a ∈ emitsFrom Core.init (es1 ++ es2)) := by
  have hwf1 := (wfEvents_append es1 es2 Core.init hwf).1
  have hinv0 : InvPub Core.init [] :=
    ⟨fun b hb _ => absurd hb (List.not_mem_nil b),
      fun p hp => absurd hp (List.not_mem_nil p)⟩
  have hinv1 := invPub_run es1 Core.init [] hwf1 hinv0
  rw [List.nil_append] at hinv1
  constructor
  · rw [coreRun_append, coreRun_append]
    rfl
  · intro a hpub
    rw [emitsFrom_append, emitsFrom_append]
    have hr : emitsFrom (coreRun Core.init es1) (Event.restart :: es2) =
        restartActions (coreRun Core.init es1) ++
          emitsFrom (coreRun Core.init es1) es2 := rfl
    rw [hr]
    simp only [List.mem_append]
    constructor
    · rintro (h1 | h2 | h3)
      · exact Or.inl h1
      · exact Or.inl (restart_pubs_mem _ _ hinv1 a h2 hpub)
      · exact Or.inr h3
    · rintro (h1 | h2)
      · exact Or.inl h1
      · exact Or.inr (Or.inr h2)

/-- C3 witness: restarting scenario S1 right after the CLTV epoch gives
the same final core state and the same published set. -/
theorem restart_idempotent_witness :
    wfEvents Core.init (traceC1.take 2 ++ traceC1.drop 2) = true ∧
    (coreRun Core.init (traceC1.take 2 ++ Event.restart :: traceC1.drop 2) =
        coreRun Core.init (traceC1.take 2 ++ traceC1.drop 2) ∧
      ∀ a : Act, a.isPublish = true →
        (a ∈ emitsFrom Core.init (traceC1.take 2 ++ Event.restart :: traceC1.drop 2) ↔
          a ∈ emitsFrom Core.init (traceC1.take 2 ++ traceC1.drop 2))) :=
  ⟨by decide, restart_idempotent (traceC1.take 2) (traceC1.drop 2) (by decide)⟩
